import Mathlib

/-!
Verification of the hadyaa-admin-panel session/auth layer, the API-client
error normalization, the dashboard aggregation, and the bank-details local
storage, as a shallow embedding of the TypeScript source
(`src/lib/auth.ts`, `src/lib/bank-details.ts`, `src/lib/api.ts`,
`src/types/api.ts`).

Modelling conventions:
* JSON values (the results of `JSON.parse`) are the inductive `Json`;
  JSON numbers are modelled as integers (fractional values and exotic
  numeric string coercions are outside the model).
* A raw `localStorage` cell is a `StoredText`: the empty string, a
  non-empty string that `JSON.parse` rejects, or a non-empty string that
  parses to a given `Json` value.  `localStorage` itself is a map from
  keys to optional cells; the SSR branch (`typeof window === "undefined"`)
  of the source is outside the model (the claims are about the browser
  case, where storage exists).
* Base64url-decoding plus `JSON.parse` of a token's payload segment is an
  explicit function parameter `pp : String → Option Json` (`none` models a
  decoding/parsing exception); `Date.now()` is an explicit `now : Int`
  parameter (milliseconds).  Theorems quantify over both.
* JavaScript truthiness, nullish coalescing (`??`), optional chaining and
  property access are modelled by `jsTruthy`, `jsCoalesce`, `jsOptChain`
  and `jsProp`; a thrown `TypeError` (property access on `null`, calling
  `.split` on a non-string) is modelled with `Except`.
-/

namespace Hadyaa

/-! ### Computable string primitives

The JavaScript string operations used by the source (`split`, `trim`,
`toLowerCase`, substring containment) are modelled by structural recursion
over the character list, so that every definition evaluates inside the
kernel on concrete inputs. -/

/-- Split a character list at every occurrence of `c` (JS
`String.prototype.split` with a one-character separator). -/
def splitCharsAux (c : Char) : List Char → List Char → List (List Char)
  | [], acc => [acc.reverse]
  | x :: xs, acc =>
    if x = c then acc.reverse :: splitCharsAux c xs []
    else splitCharsAux c xs (x :: acc)

/-- `s.split(c)` as a list of strings. -/
def splitOnChar (c : Char) (s : String) : List String :=
  (splitCharsAux c s.data []).map (fun cs => String.mk cs)

/-- JS `String.prototype.trim` (whitespace per `Char.isWhitespace`). -/
def trimChars (s : String) : String :=
  String.mk (((s.data.dropWhile Char.isWhitespace).reverse.dropWhile Char.isWhitespace).reverse)

/-- JS `String.prototype.toLowerCase` (ASCII case folding, which covers
every pattern the source tests). -/
def lowerChars (s : String) : String :=
  String.mk (s.data.map Char.toLower)

/-- `pat` is a prefix of `s`. -/
def listHasPre (pat s : List Char) : Bool :=
  match pat, s with
  | [], _ => true
  | _ :: _, [] => false
  | p :: ps, x :: xs => decide (p = x) && listHasPre ps xs

/-- `pat` occurs inside `s`. -/
def listHasSub (pat s : List Char) : Bool :=
  match s with
  | [] => pat.isEmpty
  | _ :: xs => listHasPre pat s || listHasSub pat xs

/-- `s.includes(pat)`. -/
def containsSub (s pat : String) : Bool := listHasSub pat.data s.data

/-- JSON values, as produced by `JSON.parse`.  Numbers are modelled as
integers; object fields are kept in insertion order (a parse result never
has duplicate keys). -/
inductive Json where
  | null : Json
  | bool (b : Bool) : Json
  | num (n : Int) : Json
  | str (s : String) : Json
  | arr (elems : List Json) : Json
  | obj (fields : List (String × Json)) : Json

/-- JavaScript truthiness of a JSON value. -/
def jsTruthy : Json → Bool
  | Json.null => false
  | Json.bool b => b
  | Json.num n => decide (n ≠ 0)
  | Json.str s => decide (s ≠ "")
  | Json.arr _ => true
  | Json.obj _ => true

/-- Field lookup in a parsed object (first match; parse results have no
duplicate keys). `none` models the value `undefined`. -/
def lookupField (fields : List (String × Json)) (key : String) : Option Json :=
  (fields.find? (fun f => decide (f.1 = key))).map (fun f => f.2)

/-- Property access `v[key]` on a non-nullish value: objects look the key
up, primitives and arrays yield `undefined` for the (non-index) keys used
by this codebase.  Call sites guard the nullish case separately. -/
def jsProp : Json → String → Option Json
  | Json.obj fields, key => lookupField fields key
  | _, _ => none

/-- Optional chaining `v?.[key]`: `undefined` when `v` is nullish. -/
def jsOptChain (v : Json) (key : String) : Option Json :=
  match v with
  | Json.null => none
  | _ => jsProp v key

/-- Nullish coalescing `a ?? b`, where `none` models `undefined`. -/
def jsCoalesce (a b : Option Json) : Option Json :=
  match a with
  | none => b
  | some Json.null => b
  | some v => some v

/-- Truthiness of a possibly-`undefined` value. -/
def jsTruthyOpt : Option Json → Bool
  | none => false
  | some j => jsTruthy j

/-- `Number(v)` for the values relevant here; `none` models `NaN`.
Fractional results and exotic numeric literal forms are outside the
model. -/
def jsToNumber : Json → Option Int
  | Json.null => some 0
  | Json.bool b => some (if b then 1 else 0)
  | Json.num n => some n
  | Json.str s => (fun t => if t = "" then some 0 else t.toInt?) (trimChars s)
  | Json.arr [] => some 0
  | Json.arr [Json.num n] => some n
  | Json.arr _ => none
  | Json.obj _ => none

/-! ### localStorage model -/

/-- A raw string held in a `localStorage` cell, classified by what
`JSON.parse` does to it. -/
inductive StoredText where
  | emptyText : StoredText
  | unparsable : StoredText
  | parsed (j : Json) : StoredText

/-- `localStorage`: keys to optional raw cells. -/
abbrev Storage : Type := String → Option StoredText

/-- `localStorage.setItem` (the written text is recorded via its parse
classification). -/
def setItem (sigma : Storage) (key : String) (v : StoredText) : Storage :=
  fun k => if k = key then some v else sigma k

/-- `localStorage.removeItem`. -/
def removeItem (sigma : Storage) (key : String) : Storage :=
  fun k => if k = key then none else sigma k

/-! ### `src/lib/auth.ts` -/

def AUTH_STORAGE_KEY : String := "hadyaa.admin.auth"

def ROLE_CLAIM : String :=
  "http://schemas.microsoft.com/ws/2008/06/identity/claims/role"

def NAME_ID_CLAIM : String :=
  "http://schemas.xmlsoap.org/ws/2005/05/identity/claims/nameidentifier"

def EMAIL_CLAIM : String :=
  "http://schemas.xmlsoap.org/ws/2005/05/identity/claims/emailaddress"

/-- `SessionUser`; `role` is a plain string at runtime (`UserRole` in the
source accepts arbitrary strings). -/
structure SessionUser where
  id : String
  email : String
  role : String
  firstName : String
  lastName : String
  displayName : String
  mobileNumber : Option String
  avatarPath : Option String
deriving DecidableEq

structure AuthSession where
  token : String
  user : SessionUser
deriving DecidableEq

/-- `LoginResponse`; the optional fields reflect the runtime guards
(`?? ""`, `?.trim()`) in `createSessionFromLogin`. -/
structure LoginResponse where
  token : String
  firstName : Option String
  lastName : Option String
  displayName : Option String
  mobileNumber : Option String
  avatarPath : Option String

/-- `decodeJwtPayload`: split on `"."`; fewer than two segments means
undecodable; otherwise base64url-decode and parse the second segment,
which is the `pp` parameter (`none` models a thrown exception, caught by
the source and turned into `null`). -/
def decodeJwtPayload (pp : String → Option Json) (token : String) : Option Json :=
  match splitOnChar '.' token with
  | _ :: p1 :: _ => pp p1
  | _ => none

/-- `getUserIdFromPayload`: `payload.sub ?? payload[NAME_ID_CLAIM]`, kept
only when it is a string (otherwise `""`). -/
def getUserIdFromPayload (payload : Json) : String :=
  match jsCoalesce (jsProp payload "sub") (jsProp payload NAME_ID_CLAIM) with
  | some (Json.str s) => s
  | _ => ""

/-- `getRoleFromPayload`: `payload.role ?? payload[ROLE_CLAIM]`, kept when
it is a non-blank string, else `"Donor"`. -/
def getRoleFromPayload (payload : Json) : String :=
  match jsCoalesce (jsProp payload "role") (jsProp payload ROLE_CLAIM) with
  | some (Json.str s) => if 0 < (trimChars s).length then s else "Donor"
  | _ => "Donor"

/-- `getEmailFromPayload`: `payload.email ?? payload[EMAIL_CLAIM]`, kept
when a string, else `""`. -/
def getEmailFromPayload (payload : Json) : String :=
  match jsCoalesce (jsProp payload "email") (jsProp payload EMAIL_CLAIM) with
  | some (Json.str s) => s
  | _ => ""

/-- `isTokenExpired`: `false` when the payload is undecodable or
`payload?.exp` is falsy; otherwise `payload.exp * 1000 <= Date.now()`
(`NaN` comparisons are `false`). -/
def isTokenExpired (pp : String → Option Json) (now : Int) (token : String) : Bool :=
  match decodeJwtPayload pp token with
  | none => false
  | some payload =>
    match jsOptChain payload "exp" with
    | none => false
    | some expVal =>
      if jsTruthy expVal = false then false
      else
        match jsToNumber expVal with
        | some e => decide (e * 1000 ≤ now)
        | none => false

/-- `loginResponse.displayName?.trim() || ` the trimmed
`firstName lastName` composition. -/
def composeDisplayName (dn : Option String) (firstName lastName : String) : String :=
  match dn with
  | none => trimChars (firstName ++ " " ++ lastName)
  | some d =>
    if trimChars d = "" then trimChars (firstName ++ " " ++ lastName) else trimChars d

/-- `createSessionFromLogin`. -/
def createSessionFromLogin (pp : String → Option Json) (r : LoginResponse) :
    Option AuthSession :=
  match decodeJwtPayload pp r.token with
  | none => none
  | some payload =>
    if jsTruthy payload = false then none
    else
      let id := getUserIdFromPayload payload
      if id = "" then none
      else
        let firstName := r.firstName.getD ""
        let lastName := r.lastName.getD ""
        some
          { token := r.token
            user :=
              { id := id
                role := getRoleFromPayload payload
                email := getEmailFromPayload payload
                firstName := firstName
                lastName := lastName
                displayName := composeDisplayName r.displayName firstName lastName
                mobileNumber := r.mobileNumber
                avatarPath := r.avatarPath } }

/-- `session.user?.id` on the parsed (non-null) session value. -/
def jsUserId (s : Json) : Option Json :=
  match jsProp s "user" with
  | none => none
  | some Json.null => none
  | some u => jsProp u "id"

/-- The guard `!session.token || !session.user?.id ||
isTokenExpired(session.token)` of `readStoredSession`, with
`Except.error` modelling a thrown `TypeError` (property access on a
parsed `null`, or `split` on a truthy non-string token inside
`isTokenExpired`). -/
def sessionInvalid (pp : String → Option Json) (now : Int) (s : Json) :
    Except Unit Bool :=
  match s with
  | Json.null => Except.error ()
  | _ =>
    let token := jsProp s "token"
    if jsTruthyOpt token = false then Except.ok true
    else if jsTruthyOpt (jsUserId s) = false then Except.ok true
    else
      match token with
      | some (Json.str tok) => Except.ok (isTokenExpired pp now tok)
      | _ => Except.error ()

/-- `readStoredSession`: returns the session value read back (the parsed
JSON, which the source casts to `AuthSession`) and the storage after the
call.  Any parse failure or guard failure removes the entry; a missing or
empty raw cell yields `null` without removal. -/
def readStoredSession (pp : String → Option Json) (now : Int) (sigma : Storage) :
    Option Json × Storage :=
  match sigma AUTH_STORAGE_KEY with
  | none => (none, sigma)
  | some StoredText.emptyText => (none, sigma)
  | some StoredText.unparsable => (none, removeItem sigma AUTH_STORAGE_KEY)
  | some (StoredText.parsed s) =>
    match sessionInvalid pp now s with
    | Except.error _ => (none, removeItem sigma AUTH_STORAGE_KEY)
    | Except.ok true => (none, removeItem sigma AUTH_STORAGE_KEY)
    | Except.ok false => (some s, sigma)

/-- One optional trailing field of `JSON.stringify`'s output object:
`undefined`-valued fields are dropped. -/
def optField (key : String) (v : Option String) : List (String × Json) :=
  match v with
  | none => []
  | some s => [(key, Json.str s)]

/-- `JSON.stringify` of a `SessionUser`, in the key order of the object
literal built by `createSessionFromLogin`. -/
def encodeSessionUser (u : SessionUser) : Json :=
  Json.obj
    ([("id", Json.str u.id), ("role", Json.str u.role), ("email", Json.str u.email),
      ("firstName", Json.str u.firstName), ("lastName", Json.str u.lastName),
      ("displayName", Json.str u.displayName)] ++
      optField "mobileNumber" u.mobileNumber ++ optField "avatarPath" u.avatarPath)

/-- `JSON.stringify` of an `AuthSession`. -/
def encodeSession (s : AuthSession) : Json :=
  Json.obj [("token", Json.str s.token), ("user", encodeSessionUser s.user)]

/-- `writeStoredSession`: `null` removes the entry, a session stores its
serialization. -/
def writeStoredSession (sigma : Storage) (s : Option AuthSession) : Storage :=
  match s with
  | none => removeItem sigma AUTH_STORAGE_KEY
  | some sess => setItem sigma AUTH_STORAGE_KEY (StoredText.parsed (encodeSession sess))

/-! ### `src/lib/bank-details.ts` -/

/-- `BankDetails` (`src/types/api.ts`): six string fields. -/
structure BankDetails where
  accountHolderName : String
  bankName : String
  accountNumber : String
  iban : String
  swiftCode : String
  routingNumber : String
deriving DecidableEq

def EMPTY_BANK_DETAILS : BankDetails :=
  { accountHolderName := "", bankName := "", accountNumber := "", iban := ""
    swiftCode := "", routingNumber := "" }

/-- `BANK_KEY_PREFIX` in the source (renamed here only to satisfy local
identifier conventions). -/
def bankKeyBase : String := "hadyaa.admin.bank."

/-- `getStorageKey(userId)`. -/
def getStorageKey (userId : String) : String := bankKeyBase ++ userId

/-- What `readBankDetails` actually returns at runtime: the stored field
values are arbitrary JSON despite the source's `BankDetails` cast. -/
structure BankRecord where
  accountHolderName : Json
  bankName : Json
  accountNumber : Json
  iban : Json
  swiftCode : Json
  routingNumber : Json

/-- The canonical JSON image of a proper `BankDetails` record (what
`JSON.stringify` then `JSON.parse` reconstructs field-wise). -/
def bankRecordOf (d : BankDetails) : BankRecord :=
  { accountHolderName := Json.str d.accountHolderName
    bankName := Json.str d.bankName
    accountNumber := Json.str d.accountNumber
    iban := Json.str d.iban
    swiftCode := Json.str d.swiftCode
    routingNumber := Json.str d.routingNumber }

/-- `parsed.<field> ?? ""` on the parsed (non-null) value. -/
def bankField (j : Json) (name : String) : Json :=
  match jsProp j name with
  | none => Json.str ""
  | some Json.null => Json.str ""
  | some v => v

/-- `readBankDetails`: absent, empty or unparsable cells — and a parsed
`null`, whose field access throws into the `catch` — give the all-empty
default; otherwise each field is `parsed.<field> ?? ""`. -/
def readBankDetails (sigma : Storage) (userId : String) : BankRecord :=
  match sigma (getStorageKey userId) with
  | none => bankRecordOf EMPTY_BANK_DETAILS
  | some StoredText.emptyText => bankRecordOf EMPTY_BANK_DETAILS
  | some StoredText.unparsable => bankRecordOf EMPTY_BANK_DETAILS
  | some (StoredText.parsed Json.null) => bankRecordOf EMPTY_BANK_DETAILS
  | some (StoredText.parsed j) =>
    { accountHolderName := bankField j "accountHolderName"
      bankName := bankField j "bankName"
      accountNumber := bankField j "accountNumber"
      iban := bankField j "iban"
      swiftCode := bankField j "swiftCode"
      routingNumber := bankField j "routingNumber" }

/-- `JSON.stringify` of a full `BankDetails` record. -/
def encodeBankDetails (d : BankDetails) : Json :=
  Json.obj
    [("accountHolderName", Json.str d.accountHolderName),
     ("bankName", Json.str d.bankName),
     ("accountNumber", Json.str d.accountNumber),
     ("iban", Json.str d.iban),
     ("swiftCode", Json.str d.swiftCode),
     ("routingNumber", Json.str d.routingNumber)]

/-- `writeBankDetails`: full overwrite of the user's entry. -/
def writeBankDetails (sigma : Storage) (userId : String) (d : BankDetails) : Storage :=
  setItem sigma (getStorageKey userId) (StoredText.parsed (encodeBankDetails d))

/-! ### `src/lib/api.ts`: error normalization and message extraction -/

def NETWORK_ERROR_MESSAGE : String :=
  "Unable to reach API from browser. Check VITE_API_BASE_URL, CORS, and HTTPS/HTTP mismatch."

def FALLBACK_ERROR_MESSAGE : String := "Something went wrong. Please try again."

/-- The regex test `/failed to fetch|networkerror|load failed|fetch/i`. -/
def networkPattern (msg : String) : Bool :=
  containsSub (lowerChars msg) "failed to fetch" || containsSub (lowerChars msg) "networkerror" ||
    containsSub (lowerChars msg) "load failed" || containsSub (lowerChars msg) "fetch"

/-- The runtime shape of an `ApiRequestError`: `data`, when present, is the
already-parsed error body (`parseErrorBody`'s result). -/
structure ApiReqErr where
  message : String
  status : Option Int
  data : Option Json

/-- What `normalizeApiError` can catch: an `HTTPError` (carrying the parsed
body), a `TimeoutError`, any other `Error`, or a thrown non-`Error`
value. -/
inductive CaughtError where
  | httpError (message : String) (status : Int) (parsedBody : Json) : CaughtError
  | timeoutError : CaughtError
  | plainError (message : String) : CaughtError
  | nonError (v : Json) : CaughtError

/-- `normalizeApiError` (its `await parseErrorBody(...)` is modelled by the
`parsedBody` component of `CaughtError.httpError`). -/
def normalizeApiError : CaughtError → ApiReqErr
  | CaughtError.httpError m st body => { message := m, status := some st, data := some body }
  | CaughtError.timeoutError => { message := "Request timed out.", status := none, data := none }
  | CaughtError.plainError m =>
    { message := if networkPattern m then NETWORK_ERROR_MESSAGE else m
      status := none, data := none }
  | CaughtError.nonError _ => { message := FALLBACK_ERROR_MESSAGE, status := none, data := none }

/-- `v?.[0]` for the values reachable from `readApiErrorMessage`. -/
def indexZero : Json → Option Json
  | Json.null => none
  | Json.arr [] => none
  | Json.arr (x :: _) => some x
  | Json.str s => if s = "" then none else some (Json.str (s.take 1))
  | Json.obj fields => lookupField fields "0"
  | _ => none

/-- `Object.values(v)[0]`: first own enumerable value (fields in insertion
order; strings enumerate their characters; primitives have none). -/
def valuesHead : Json → Option Json
  | Json.obj [] => none
  | Json.obj (f :: _) => some f.2
  | Json.arr [] => none
  | Json.arr (x :: _) => some x
  | Json.str s => if s = "" then none else some (Json.str (s.take 1))
  | _ => none

/-- `Object.values(errors)[0]?.[0]`. -/
def firstErrorsMessage (e : Json) : Option Json := (valuesHead e).bind indexZero

/-- The `title` step of `readApiErrorMessage`. -/
def fallbackTitle (fields : List (String × Json)) : Option Json :=
  match lookupField fields "title" with
  | some t => if jsTruthy t then some t else none
  | none => none

/-- `readApiErrorMessage(data)`: `null` unless `data` is a truthy object;
then the first truthy of the first `errors` message, `detail`, `title`.
(`typeof data === "object"` also admits arrays, whose three lookups are all
`undefined`.) -/
def readApiErrorMessage (data : Option Json) : Option Json :=
  match data with
  | none => none
  | some j =>
    if jsTruthy j = false then none
    else
      match j with
      | Json.obj fields =>
        let afterErrors : Option Json :=
          match lookupField fields "errors" with
          | some ev =>
            if jsTruthy ev then
              match firstErrorsMessage ev with
              | some m => if jsTruthy m then some m else none
              | none => none
            else none
          | none => none
        (match afterErrors with
         | some m => some m
         | none =>
           match lookupField fields "detail" with
           | some d => if jsTruthy d then some d else fallbackTitle fields
           | none => fallbackTitle fields)
      | _ => none

/-- What `extractApiErrorMessage` can receive: an `ApiRequestError`, some
other `Error`, or a non-`Error` value. -/
inductive ExtractInput where
  | apiError (e : ApiReqErr) : ExtractInput
  | otherError (message : String) : ExtractInput
  | nonError (v : Json) : ExtractInput

/-- The `error instanceof Error` tail of `extractApiErrorMessage`. -/
def errorTail (msg : String) : Json :=
  if networkPattern msg then Json.str NETWORK_ERROR_MESSAGE
  else if msg = "" then Json.str FALLBACK_ERROR_MESSAGE
  else Json.str msg

/-- `extractApiErrorMessage` (an `ApiRequestError` is itself an `Error`, so
an all-falsy `ApiRequestError` falls through to the `Error` tail). -/
def extractApiErrorMessage : ExtractInput → Json
  | ExtractInput.apiError e =>
    (match readApiErrorMessage e.data with
     | some m => m
     | none =>
       match e.data with
       | some (Json.str s) =>
         if trimChars s = "" then (if e.message = "" then errorTail e.message else Json.str e.message)
         else Json.str s
       | _ => if e.message = "" then errorTail e.message else Json.str e.message)
  | ExtractInput.otherError m => errorTail m
  | ExtractInput.nonError _ => Json.str FALLBACK_ERROR_MESSAGE

/-! ### `src/lib/api.ts`: dashboard aggregation -/

structure Category where
  id : Int
  name : String
  createdOn : Option String
  modifiedOn : Option String
  imageFileName : Option String
  imageContentType : Option String
  imagePath : Option String
deriving DecidableEq

structure Address where
  id : Option String
  country : String
  state : String
  city : String
deriving DecidableEq

structure ProjectImage where
  id : String
  fileName : String
  contentType : Option String
  storagePath : String
deriving DecidableEq

/-- `Project` (`src/types/api.ts`); `number` fields are modelled as
integers. -/
structure Project where
  id : String
  npoUserId : String
  title : String
  categoryId : Int
  category : Option Category
  createdAt : Option String
  createdOn : Option String
  modifiedOn : Option String
  startDate : String
  endDate : Option String
  description : String
  targetAmount : Int
  currency : String
  raisedAmount : Int
  addresses : List Address
  images : List ProjectImage
  videos : List ProjectImage
  isApproved : Bool
  approvedAt : Option String
  approvedByUserId : Option String
deriving DecidableEq

/-- `toDateEpoch`: missing/empty/unparseable dates are `-Infinity`
(`⊥`); `parse` stands for `new Date(value).getTime()` on non-empty
strings (`none` = `NaN`). -/
def toDateEpoch (parse : String → Option Int) (value : Option String) : WithBot Int :=
  match value with
  | none => ⊥
  | some v =>
    if v = "" then ⊥
    else
      match parse v with
      | some epoch => (epoch : WithBot Int)
      | none => ⊥

/-- `getProjectCreatedDate`: `createdOn ?? createdAt ?? startDate`. -/
def getProjectCreatedDate (p : Project) : Option String :=
  match p.createdOn with
  | some v => some v
  | none =>
    match p.createdAt with
    | some v => some v
    | none => some p.startDate

/-- The descending sort key used by the dashboard comparator. -/
def sortKey (parse : String → Option Int) (p : Project) : WithBot Int :=
  toDateEpoch parse (getProjectCreatedDate p)

/-- `categoryMap.get(cid)` where the `Map` was built from the categories
list (later duplicate ids overwrite earlier ones). -/
def categoryMapGet (categories : List Category) (cid : Int) : Option Category :=
  categories.reverse.find? (fun c => decide (c.id = cid))

/-- `{ ...project, category: project.category ?? categoryMap.get(project.categoryId) ?? null }`. -/
def attachCategory (categories : List Category) (p : Project) : Project :=
  { p with
    category :=
      match p.category with
      | some c => some c
      | none => categoryMapGet categories p.categoryId }

/-- One step of filling the dedup `Map` (`if (!deduped.has(id)) deduped.set(id, ...)`;
a JS `Map` appends new keys in insertion order). -/
def dedupStep (categories : List Category) (m : List (String × Project)) (p : Project) :
    List (String × Project) :=
  if m.any (fun e => decide (e.1 = p.id)) then m
  else m ++ [(p.id, attachCategory categories p)]

/-- The pure core of `getProjectsForDashboard`, taking the fetched
categories and the per-category fan-out results as inputs: flatten,
dedup by id (first occurrence wins), attach category metadata, and sort
by descending creation date with `Array.prototype.sort` (a stable sort;
two `-Infinity` keys compare as equal because the comparator's `NaN` is
treated as `0`). -/
def getProjectsForDashboard (parse : String → Option Int) (categories : List Category)
    (projectsByCategory : List (List Project)) : List Project :=
  if categories.length = 0 then []
  else
    let deduped :=
      ((projectsByCategory.flatten).foldl (dedupStep categories) []).map (fun e => e.2)
    List.insertionSort (fun a b => sortKey parse b ≤ sortKey parse a) deduped

/-! ### Specification-side definitions (phrased from the claims, to be
compared against the source embeddings) -/

/-- Phrased from claim C1's validity notion, restated over what the code
actually checks: a stored value is retained exactly when it parses to an
object whose `token` is a non-empty string, whose `user?.id` is truthy,
and whose token `isTokenExpired` reports unexpired. -/
def retainedSession (pp : String → Option Json) (now : Int) (j : Json) : Bool :=
  match j with
  | Json.obj fields =>
    (match lookupField fields "token" with
     | some (Json.str tok) =>
       decide (tok ≠ "") && jsTruthyOpt (jsUserId (Json.obj fields)) &&
         !(isTokenExpired pp now tok)
     | _ => false)
  | _ => false

/-- Phrased from claim C4's words: a usable subject id is a non-empty
string under the direct `sub` key or, failing that, under the legacy
name-identifier claim key. -/
def claimedSubjectId (payload : Json) : Option String :=
  match jsProp payload "sub" with
  | some (Json.str s) =>
    if s ≠ "" then some s
    else
      match jsProp payload NAME_ID_CLAIM with
      | some (Json.str t) => if t ≠ "" then some t else none
      | _ => none
  | _ =>
    match jsProp payload NAME_ID_CLAIM with
    | some (Json.str t) => if t ≠ "" then some t else none
    | _ => none

/-- Phrased from the amended claim C4: the subject id is the first
non-nullish of the `sub` claim and the legacy name-identifier claim, and
it is usable exactly when it is a non-empty string. -/
def amendedSubjectId (payload : Json) : Option String :=
  match jsCoalesce (jsProp payload "sub") (jsProp payload NAME_ID_CLAIM) with
  | some (Json.str s) => if s = "" then none else some s
  | _ => none

/-- Phrased from the amended claim C6: the role claim (direct `role` key,
else the legacy role claim key) is kept verbatim whenever it is a
non-blank string — recognized or not — and falls back to `"Donor"`
otherwise. -/
def amendedRole (payload : Json) : String :=
  match jsCoalesce (jsProp payload "role") (jsProp payload ROLE_CLAIM) with
  | some (Json.str s) => if trimChars s = "" then "Donor" else s
  | _ => "Donor"

/-- First truthy candidate in a message chain, else the default. -/
def firstTruthy : List (Option Json) → Json → Json
  | [], dflt => dflt
  | c :: rest, dflt =>
    match c with
    | some v => if jsTruthy v then v else firstTruthy rest dflt
    | none => firstTruthy rest dflt

/-- Claim C7's first candidate: the first message of the first field in
the parsed body's field-keyed errors map. -/
def claimErrorsMessage (data : Option Json) : Option Json :=
  match data with
  | some (Json.obj fields) =>
    (match lookupField fields "errors" with
     | some (Json.obj efields) =>
       match efields with
       | (_, Json.arr (m :: _)) :: _ => some m
       | _ => none
     | _ => none)
  | _ => none

/-- Claim C7's `detail` candidate. -/
def claimDetail (data : Option Json) : Option Json :=
  match data with
  | some (Json.obj fields) => lookupField fields "detail"
  | _ => none

/-- Claim C7's `title` candidate. -/
def claimTitle (data : Option Json) : Option Json :=
  match data with
  | some (Json.obj fields) => lookupField fields "title"
  | _ => none

/-- Claim C7's candidate: the body itself when it is a non-blank
string. -/
def claimStringBody (data : Option Json) : Option Json :=
  match data with
  | some (Json.str s) => if trimChars s = "" then none else some (Json.str s)
  | _ => none

/-- Phrased from claim C7: the first available of the errors-map message,
`detail`, `title`, the string body, the error's own message, and the
fixed fallback. -/
def claimedApiMessage (message : String) (data : Option Json) : Json :=
  firstTruthy
    [claimErrorsMessage data, claimDetail data, claimTitle data, claimStringBody data,
      some (Json.str message)]
    (Json.str FALLBACK_ERROR_MESSAGE)

/-- `v` is a JSON array. -/
def isArrVal : Json → Bool
  | Json.arr _ => true
  | _ => false

/-- The `errors` field, when present, has the `ApiErrorShape` type
`Record<string, string[]>` (a field-keyed map of arrays) — the domain on
which claim C7 describes the chain. -/
def errorsWellShaped (data : Option Json) : Bool :=
  match data with
  | some (Json.obj fields) =>
    (match lookupField fields "errors" with
     | none => true
     | some (Json.obj efields) => efields.all (fun f => isArrVal f.2)
     | some _ => false)
  | _ => true

/-! ### Concrete instances used by counterexamples and witnesses -/

/-- A stored session whose token, `"garbage"`, has a single segment and is
therefore undecodable under any payload parser. -/
def cOneStored : Json :=
  Json.obj [("token", Json.str "garbage"), ("user", Json.obj [("id", Json.str "u1")])]

def cOneStorage : Storage :=
  fun k => if k = AUTH_STORAGE_KEY then some (StoredText.parsed cOneStored) else none

def cOneEmptyStorage : Storage :=
  fun k => if k = AUTH_STORAGE_KEY then some StoredText.emptyText else none

def cOneRetainedStorage : Storage :=
  fun k => if k = AUTH_STORAGE_KEY then some StoredText.unparsable else none

/-- Payload parser for the C3 witness (never consulted: the witness token's
payload segment is mapped to a payload without an expiry claim). -/
def cThreeParse : String → Option Json :=
  fun s => if s = "p" then some (Json.obj [("sub", Json.str "u1")]) else none

def cThreeSession : AuthSession :=
  { token := "t.p"
    user :=
      { id := "u1", email := "a@b.c", role := "Donor", firstName := "A", lastName := "B",
        displayName := "A B", mobileNumber := none, avatarPath := none } }

/-- The C4 counterexample payload: an empty-string `sub` claim next to a
usable legacy name-identifier claim.  (Its real token would carry the
base64url encoding of this object as its second segment; the payload
parser maps the segment `"b"` to it.) -/
def cFourPayload : Json :=
  Json.obj [("sub", Json.str ""), (NAME_ID_CLAIM, Json.str "u1")]

def cFourParse : String → Option Json := fun s => if s = "b" then some cFourPayload else none

def cFourLogin : LoginResponse :=
  { token := "a.b", firstName := none, lastName := none, displayName := none,
    mobileNumber := none, avatarPath := none }

def cFourWitnessParse : String → Option Json :=
  fun s => if s = "b" then some (Json.obj [("sub", Json.str "u2")]) else none

/-- Payload parser for C5: maps the genuine base64url segments of
`{"exp":0}` and `{"exp":5}` to their parsed payloads. -/
def cFiveParse : String → Option Json :=
  fun s =>
    if s = "eyJleHAiOjB9" then some (Json.obj [("exp", Json.num 0)])
    else if s = "eyJleHAiOjV9" then some (Json.obj [("exp", Json.num 5)])
    else none

def cSixPayload : Json :=
  Json.obj [("sub", Json.str "u1"), ("role", Json.str "Superadmin")]

def cSixParse : String → Option Json := fun s => if s = "b" then some cSixPayload else none

def cSixLogin : LoginResponse :=
  { token := "a.b", firstName := some "A", lastName := some "B", displayName := none,
    mobileNumber := none, avatarPath := none }

def cSixWitnessPayload : Json :=
  Json.obj [("sub", Json.str "u1"), ("role", Json.str "Npo")]

def cSixWitnessParse : String → Option Json :=
  fun s => if s = "b" then some cSixWitnessPayload else none

/-- The session the C6 witness login produces. -/
def cSixWitnessSession : AuthSession :=
  { token := "a.b"
    user :=
      { id := "u1", email := "", role := "Npo", firstName := "A", lastName := "B",
        displayName := "A B", mobileNumber := none, avatarPath := none } }

/-- The spec's HTTP 422 example body. -/
def cSevenBody : Json :=
  Json.obj [("errors", Json.obj [("email", Json.arr [Json.str "Email is required"])])]

def cSevenError : ApiReqErr :=
  { message := "Unprocessable Entity", status := some 422, data := some cSevenBody }

/-- Categories `{id: 1}` and `{id: 2}` from the spec's dashboard
example. -/
def cTwoCat (i : Int) : Category :=
  { id := i, name := "cat", createdOn := none, modifiedOn := none, imageFileName := none,
    imageContentType := none, imagePath := none }

def cTwoProject (pid : String) (cid : Int) (co ca : Option String) (sd : String) : Project :=
  { id := pid, npoUserId := "n", title := "t", categoryId := cid, category := none,
    createdAt := ca, createdOn := co, modifiedOn := none, startDate := sd, endDate := none,
    description := "", targetAmount := 0, currency := "USD", raisedAmount := 0,
    addresses := [], images := [], videos := [], isApproved := false, approvedAt := none,
    approvedByUserId := none }

/-- A concrete date parser for the C2 witness (stands for
`new Date(v).getTime()` on the three dates involved). -/
def cTwoParse : String → Option Int :=
  fun s =>
    if s = "2024-01-01" then some 1704067200000
    else if s = "2024-02-01" then some 1706745600000
    else if s = "2024-03-01" then some 1709251200000
    else none

def cTwoLists : List (List Project) :=
  [[cTwoProject "a" 1 (some "2024-01-01") none "2024-01-01",
    cTwoProject "b" 1 none none "2024-03-01"],
   [cTwoProject "a" 2 (some "2024-02-01") none "2024-02-01",
    cTwoProject "c" 2 (some "2024-02-01") none "x"]]

/-! ## Helper lemmas -/

theorem lookupField_cons (k : String) (v : Json) (fs : List (String × Json)) (key : String) :
    lookupField ((k, v) :: fs) key = if k = key then some v else lookupField fs key := by
  by_cases h : k = key <;> simp [lookupField, List.find?_cons, h]

theorem string_length_pos_iff (t : String) : 0 < t.length ↔ t ≠ "" := by
  obtain ⟨l⟩ := t
  cases l <;> simp [String.length, String.ext_iff]

theorem networkPattern_empty : networkPattern "" = false := rfl

theorem trimChars_ne_empty {s : String} (h : trimChars s ≠ "") : s ≠ "" := by
  intro he
  subst he
  exact h rfl

/-! ## Claim C5: token expiry -/

/-- C5, counterexample: the token `"x.eyJleHAiOjB9"` decodes to the
payload `{"exp": 0}` (the second segment is the base64url encoding of
that object), whose expiry `0`, converted to milliseconds, is at or
before the current time `1700000000000`; the claim therefore demands
`isExpired = true`, but `isTokenExpired` returns `false` (`!payload?.exp`
is `true` for the falsy expiry `0`). -/
theorem C5_counterexample :
    decodeJwtPayload cFiveParse "x.eyJleHAiOjB9" = some (Json.obj [("exp", Json.num 0)]) ∧
    ((0 : Int) * 1000 ≤ 1700000000000) ∧
    isTokenExpired cFiveParse 1700000000000 "x.eyJleHAiOjB9" = false :=
  ⟨rfl, by norm_num, rfl⟩

/-- C5, amended: `isExpired` returns `false` when the payload is
undecodable, when no expiry claim is present, and also when the expiry
claim is `0` (a falsy value); for a present nonzero numeric expiry `e`
it returns `true` exactly when `e`, converted to milliseconds, is at or
before the current time. -/
theorem C5_expiry (pp : String → Option Json) (now : Int) (token : String) :
    (decodeJwtPayload pp token = none → isTokenExpired pp now token = false) ∧
    (∀ payload, decodeJwtPayload pp token = some payload →
      jsOptChain payload "exp" = none → isTokenExpired pp now token = false) ∧
    (∀ payload, decodeJwtPayload pp token = some payload →
      jsOptChain payload "exp" = some (Json.num 0) → isTokenExpired pp now token = false) ∧
    (∀ payload e, decodeJwtPayload pp token = some payload →
      jsOptChain payload "exp" = some (Json.num e) → e ≠ 0 →
      (isTokenExpired pp now token = true ↔ e * 1000 ≤ now)) := by
  refine ⟨fun h => by simp [isTokenExpired, h], fun payload h he => by simp [isTokenExpired, h, he],
    fun payload h he => by simp [isTokenExpired, h, he, jsTruthy],
    fun payload e h he hne => ?_⟩
  simp [isTokenExpired, h, he, jsTruthy, hne, jsToNumber]

/-- C5 witness: the token whose payload is `{"exp": 5}` is expired at time
`1700000000000`. -/
theorem C5_expiry_witness :
    isTokenExpired cFiveParse 1700000000000 "x.eyJleHAiOjV9" = true :=
  ((C5_expiry cFiveParse 1700000000000 "x.eyJleHAiOjV9").2.2.2
      (Json.obj [("exp", Json.num 5)]) 5 rfl rfl (by norm_num)).mpr (by norm_num)

/-! ## Claim C8: network-failure normalization -/

/-- C8: a non-HTTP, non-timeout `Error` whose message matches the
network-failure pattern normalizes to the fixed guidance message, and
`extractApiErrorMessage` then surfaces exactly that message, never the
raw transport text. -/
theorem C8_network (m : String) (h : networkPattern m = true) :
    (normalizeApiError (CaughtError.plainError m)).message = NETWORK_ERROR_MESSAGE ∧
    extractApiErrorMessage (ExtractInput.apiError (normalizeApiError (CaughtError.plainError m))) =
      Json.str NETWORK_ERROR_MESSAGE := by
  refine ⟨by simp [normalizeApiError, h], ?_⟩
  have hne : NETWORK_ERROR_MESSAGE ≠ "" := by decide
  simp [normalizeApiError, h, extractApiErrorMessage, readApiErrorMessage, hne]

/-- C8 witness at the transport message `"Failed to fetch"`. -/
theorem C8_network_witness :
    networkPattern "Failed to fetch" = true ∧
    extractApiErrorMessage
        (ExtractInput.apiError (normalizeApiError (CaughtError.plainError "Failed to fetch"))) =
      Json.str NETWORK_ERROR_MESSAGE :=
  ⟨rfl, (C8_network "Failed to fetch" rfl).2⟩

/-! ## Claim C6: role derivation -/

theorem getRole_eq_amendedRole (payload : Json) :
    getRoleFromPayload payload = amendedRole payload := by
  unfold getRoleFromPayload amendedRole
  rcases h : jsCoalesce (jsProp payload "role") (jsProp payload ROLE_CLAIM) with _ | v
  · rfl
  · cases v <;> simp_all [string_length_pos_iff]

/-- C6, counterexample: the payload `{"sub": "u1", "role": "Superadmin"}`
carries a non-blank role claim outside {Admin, Npo, Donor}, yet the
derived session keeps `"Superadmin"` — the claimed fallback to
`"Donor"` does not happen. -/
theorem C6_counterexample :
    decodeJwtPayload cSixParse cSixLogin.token = some cSixPayload ∧
    trimChars "Superadmin" ≠ "" ∧
    ¬ ("Superadmin" = "Admin" ∨ "Superadmin" = "Npo" ∨ "Superadmin" = "Donor") ∧
    (createSessionFromLogin cSixParse cSixLogin).map (fun s => s.user.role) =
      some "Superadmin" :=
  ⟨rfl, by decide, by decide, rfl⟩

/-- C6, amended: the derived role falls back to `"Donor"` exactly when
the role claim (direct key, else legacy claim key) is absent, nullish,
non-string or blank; any non-blank string role — recognized or not — is
kept verbatim. -/
theorem C6_role (pp : String → Option Json) (r : LoginResponse) (payload : Json)
    (s : AuthSession) (hd : decodeJwtPayload pp r.token = some payload)
    (hs : createSessionFromLogin pp r = some s) :
    s.user.role = amendedRole payload := by
  unfold createSessionFromLogin at hs
  rw [hd] at hs
  rcases ht : jsTruthy payload with _ | _
  · simp [ht] at hs
  · simp only [ht, if_neg] at hs
    by_cases hid : getUserIdFromPayload payload = ""
    · simp [hid] at hs
    · simp only [hid, if_false, Option.some.injEq, if_neg, Bool.true_eq_false] at hs
      subst hs
      exact getRole_eq_amendedRole payload

/-- C6 witness: a recognized role claim (`"Npo"`) is likewise kept. -/
theorem C6_role_witness :
    createSessionFromLogin cSixWitnessParse cSixLogin = some cSixWitnessSession ∧
    cSixWitnessSession.user.role = amendedRole cSixWitnessPayload :=
  ⟨rfl, C6_role cSixWitnessParse cSixLogin cSixWitnessPayload _ rfl rfl⟩

/-! ## Claim C4: session creation iff a usable subject id -/

theorem falsy_amendedSubjectId {payload : Json} (h : jsTruthy payload = false) :
    amendedSubjectId payload = none := by
  cases payload <;> simp_all [jsTruthy, amendedSubjectId, jsProp, jsCoalesce]

theorem amendedSubjectId_eq (payload : Json) :
    amendedSubjectId payload =
      if getUserIdFromPayload payload = "" then none
      else some (getUserIdFromPayload payload) := by
  unfold amendedSubjectId getUserIdFromPayload
  rcases h : jsCoalesce (jsProp payload "sub") (jsProp payload NAME_ID_CLAIM) with _ | v
  · rfl
  · cases v <;> simp_all

/-- C4, counterexample: the payload carries an empty-string `sub` next to
a usable legacy name-identifier claim `"u1"`; by the claim a session
with id `"u1"` should be produced, but `createSessionFromLogin` yields
absent — the empty (non-nullish) `sub` blocks the legacy fallback. -/
theorem C4_counterexample :
    decodeJwtPayload cFourParse cFourLogin.token = some cFourPayload ∧
    claimedSubjectId cFourPayload = some "u1" ∧
    createSessionFromLogin cFourParse cFourLogin = none :=
  ⟨rfl, rfl, rfl⟩

/-- C4, amended: a session is produced iff the token decodes to a payload
whose first non-nullish value among `sub` and the legacy name-identifier
claim is a non-empty string (so a present-but-empty or non-string `sub`
blocks the legacy fallback); when produced, the session's token is the
response token and its user id is that derived subject id. -/
theorem C4_subject (pp : String → Option Json) (r : LoginResponse) :
    (∀ s, createSessionFromLogin pp r = some s →
      s.token = r.token ∧
        ∃ payload, decodeJwtPayload pp r.token = some payload ∧
          amendedSubjectId payload = some s.user.id) ∧
    ((createSessionFromLogin pp r).isSome ↔
      ∃ payload, decodeJwtPayload pp r.token = some payload ∧
        (amendedSubjectId payload).isSome) := by
  rcases hd : decodeJwtPayload pp r.token with _ | payload
  · constructor
    · intro s hs
      simp [createSessionFromLogin, hd] at hs
    · simp [createSessionFromLogin, hd]
  · rcases ht : jsTruthy payload with _ | _
    · constructor
      · intro s hs
        simp [createSessionFromLogin, hd, ht] at hs
      · simp [createSessionFromLogin, hd, ht, falsy_amendedSubjectId ht]
    · by_cases hid : getUserIdFromPayload payload = ""
      · constructor
        · intro s hs
          simp [createSessionFromLogin, hd, ht, hid] at hs
        · simp [createSessionFromLogin, hd, ht, hid, amendedSubjectId_eq]
      · constructor
        · intro s hs
          simp only [createSessionFromLogin, hd, ht, hid, if_false, if_neg,
            Bool.true_eq_false, Option.some.injEq] at hs
          subst hs
          exact ⟨rfl, payload, rfl, by simp [amendedSubjectId_eq, hid]⟩
        · simp [createSessionFromLogin, hd, ht, hid, amendedSubjectId_eq]

/-- C4 witness: a payload with the usable subject id `"u2"` produces a
session. -/
theorem C4_subject_witness :
    (createSessionFromLogin cFourWitnessParse cFourLogin).isSome :=
  (C4_subject cFourWitnessParse cFourLogin).2.mpr ⟨Json.obj [("sub", Json.str "u2")], rfl, rfl⟩

/-! ## Claim C3: session round-trip -/

/-- C3: writing a structurally valid session (non-empty token string,
non-empty user id) whose token is unexpired at read time, then reading,
returns exactly the stored session value and leaves the storage entry in
place; the second conjunct makes "equal to `s`" precise by showing the
serialization is injective. -/
theorem C3_roundTrip (pp : String → Option Json) (now : Int) (sigma : Storage)
    (s : AuthSession) (htok : s.token ≠ "") (hid : s.user.id ≠ "")
    (hexp : isTokenExpired pp now s.token = false) :
    readStoredSession pp now (writeStoredSession sigma (some s)) =
      (some (encodeSession s), writeStoredSession sigma (some s)) ∧
    (∀ s2, encodeSession s2 = encodeSession s → s2 = s) := by
  constructor
  · have hcell : writeStoredSession sigma (some s) AUTH_STORAGE_KEY =
        some (StoredText.parsed (encodeSession s)) := by
      simp [writeStoredSession, setItem]
    have hinv : sessionInvalid pp now (encodeSession s) = Except.ok false := by
      simp [sessionInvalid, encodeSession, encodeSessionUser, jsProp, lookupField_cons,
        jsTruthyOpt, jsTruthy, jsUserId, htok, hid, hexp]
    simp [readStoredSession, hcell, hinv]
  · intro s2 h
    obtain ⟨t2, u2⟩ := s2
    obtain ⟨t, u⟩ := s
    obtain ⟨i2, e2, r2, f2, l2, d2, m2, a2⟩ := u2
    obtain ⟨i, e, r, f, l, d, m, a⟩ := u
    simp only [encodeSession, encodeSessionUser, optField, Json.obj.injEq, Json.str.injEq,
      List.cons.injEq, Prod.mk.injEq, List.append_eq] at h
    rcases m2 with _ | m2 <;> rcases m with _ | m <;> rcases a2 with _ | a2 <;>
      rcases a with _ | a <;> simp_all

/-- C3 witness: a concrete write/read round-trip. -/
theorem C3_roundTrip_witness :
    (cThreeSession.token ≠ "") ∧ (cThreeSession.user.id ≠ "") ∧
    (readStoredSession cThreeParse 1700000000000
        (writeStoredSession (fun _ => none) (some cThreeSession))).1 =
      some (encodeSession cThreeSession) := by
  refine ⟨by decide, by decide, ?_⟩
  rw [(C3_roundTrip cThreeParse 1700000000000 (fun _ => none) cThreeSession (by decide)
    (by decide) rfl).1]

/-! ## Claim C9: bank-details read -/

/-- C9: `readBankDetails` is total; an absent entry, the stored empty
string, an unparsable entry, and a parsed `null` (whose field access
throws into the catch) all yield the all-empty default; a parsed object
yields the stored fields with every missing or `null` field replaced by
the empty string; any other parsed value has no own fields, so every
field is the empty string (the all-empty default again). -/
theorem C9_read (u : String) (sigma : Storage) :
    (sigma (getStorageKey u) = none →
      readBankDetails sigma u = bankRecordOf EMPTY_BANK_DETAILS) ∧
    (sigma (getStorageKey u) = some StoredText.emptyText →
      readBankDetails sigma u = bankRecordOf EMPTY_BANK_DETAILS) ∧
    (sigma (getStorageKey u) = some StoredText.unparsable →
      readBankDetails sigma u = bankRecordOf EMPTY_BANK_DETAILS) ∧
    (sigma (getStorageKey u) = some (StoredText.parsed Json.null) →
      readBankDetails sigma u = bankRecordOf EMPTY_BANK_DETAILS) ∧
    (∀ fields, sigma (getStorageKey u) = some (StoredText.parsed (Json.obj fields)) →
      readBankDetails sigma u =
        { accountHolderName := bankField (Json.obj fields) "accountHolderName"
          bankName := bankField (Json.obj fields) "bankName"
          accountNumber := bankField (Json.obj fields) "accountNumber"
          iban := bankField (Json.obj fields) "iban"
          swiftCode := bankField (Json.obj fields) "swiftCode"
          routingNumber := bankField (Json.obj fields) "routingNumber" }) ∧
    (∀ j, sigma (getStorageKey u) = some (StoredText.parsed j) → j ≠ Json.null →
      (∀ fields, j ≠ Json.obj fields) →
      readBankDetails sigma u = bankRecordOf EMPTY_BANK_DETAILS) := by
  refine ⟨fun h => by simp [readBankDetails, h], fun h => by simp [readBankDetails, h],
    fun h => by simp [readBankDetails, h], fun h => by simp [readBankDetails, h],
    fun fields h => by simp [readBankDetails, h], fun j h hnull hobj => ?_⟩
  cases j with
  | null => exact absurd rfl hnull
  | obj fields => exact absurd rfl (hobj fields)
  | bool b => simp [readBankDetails, h, bankField, jsProp, bankRecordOf, EMPTY_BANK_DETAILS]
  | num n => simp [readBankDetails, h, bankField, jsProp, bankRecordOf, EMPTY_BANK_DETAILS]
  | str s => simp [readBankDetails, h, bankField, jsProp, bankRecordOf, EMPTY_BANK_DETAILS]
  | arr l => simp [readBankDetails, h, bankField, jsProp, bankRecordOf, EMPTY_BANK_DETAILS]

/-- C9 witness: an unparsable entry yields the all-empty default. -/
theorem C9_read_witness :
    readBankDetails (fun k => if k = getStorageKey "u9" then some StoredText.unparsable else none)
        "u9" =
      bankRecordOf EMPTY_BANK_DETAILS :=
  (C9_read "u9" (fun k => if k = getStorageKey "u9" then some StoredText.unparsable else none)).2.2.1
    (by simp)

/-! ## Claim C10: bank-details round-trip -/

/-- C10: a write is a full overwrite and the immediate read reconstructs
the record exactly (as its canonical JSON image; the second conjunct
shows the image is injective, making "equal to `d`" precise). -/
theorem C10_roundTrip (u : String) (d : BankDetails) (sigma : Storage) :
    readBankDetails (writeBankDetails sigma u d) u = bankRecordOf d ∧
    (∀ d2, bankRecordOf d2 = bankRecordOf d → d2 = d) := by
  constructor
  · have hcell : writeBankDetails sigma u d (getStorageKey u) =
        some (StoredText.parsed (encodeBankDetails d)) := by
      simp [writeBankDetails, setItem]
    simp [readBankDetails, hcell, encodeBankDetails, bankField, jsProp, lookupField_cons,
      bankRecordOf]
  · intro d2 h
    obtain ⟨a2, b2, c2, i2, s2, r2⟩ := d2
    obtain ⟨a, b, c, i, s, r⟩ := d
    simp_all [bankRecordOf, Json.str.injEq]

/-! ## Claim C1: stored-session validation -/

theorem jsTruthyOpt_none : jsTruthyOpt none = false := rfl

theorem jsTruthyOpt_some (j : Json) : jsTruthyOpt (some j) = jsTruthy j := rfl

theorem retained_iff_ok_false (pp : String → Option Json) (now : Int) (j : Json) :
    retainedSession pp now j = true ↔ sessionInvalid pp now j = Except.ok false := by
  cases j with
  | null => simp [retainedSession, sessionInvalid]
  | bool b => simp [retainedSession, sessionInvalid, jsProp, jsTruthyOpt_none]
  | num n => simp [retainedSession, sessionInvalid, jsProp, jsTruthyOpt_none]
  | str s => simp [retainedSession, sessionInvalid, jsProp, jsTruthyOpt_none]
  | arr l => simp [retainedSession, sessionInvalid, jsProp, jsTruthyOpt_none]
  | obj fields =>
    rcases h : lookupField fields "token" with _ | v
    · simp [retainedSession, sessionInvalid, jsProp, h, jsTruthyOpt_none]
    · rcases hu : jsTruthyOpt (jsUserId (Json.obj fields)) with _ | _
      · cases v with
        | str tok =>
          by_cases he : tok = "" <;>
            simp [retainedSession, sessionInvalid, jsProp, h, hu, jsTruthyOpt_some, jsTruthy, he]
        | num n =>
          by_cases hn : n = 0 <;>
            simp [retainedSession, sessionInvalid, jsProp, h, hu, jsTruthyOpt_some, jsTruthy, hn]
        | bool b =>
          cases b <;>
            simp [retainedSession, sessionInvalid, jsProp, h, hu, jsTruthyOpt_some, jsTruthy]
        | null =>
          simp [retainedSession, sessionInvalid, jsProp, h, hu, jsTruthyOpt_some, jsTruthy]
        | arr l =>
          simp [retainedSession, sessionInvalid, jsProp, h, hu, jsTruthyOpt_some, jsTruthy]
        | obj gs =>
          simp [retainedSession, sessionInvalid, jsProp, h, hu, jsTruthyOpt_some, jsTruthy]
      · cases v with
        | str tok =>
          by_cases he : tok = ""
          · simp [retainedSession, sessionInvalid, jsProp, h, hu, jsTruthyOpt_some, jsTruthy, he]
          · cases hx : isTokenExpired pp now tok <;>
              simp [retainedSession, sessionInvalid, jsProp, h, hu, jsTruthyOpt_some, jsTruthy,
                he, hx]
        | num n =>
          by_cases hn : n = 0 <;>
            simp [retainedSession, sessionInvalid, jsProp, h, hu, jsTruthyOpt_some, jsTruthy, hn]
        | bool b =>
          cases b <;>
            simp [retainedSession, sessionInvalid, jsProp, h, hu, jsTruthyOpt_some, jsTruthy]
        | null =>
          simp [retainedSession, sessionInvalid, jsProp, h, hu, jsTruthyOpt_some, jsTruthy]
        | arr l =>
          simp [retainedSession, sessionInvalid, jsProp, h, hu, jsTruthyOpt_some, jsTruthy]
        | obj gs =>
          simp [retainedSession, sessionInvalid, jsProp, h, hu, jsTruthyOpt_some, jsTruthy]

/-- C1, counterexample: the stored record
`{"token": "garbage", "user": {"id": "u1"}}` has a token that is not
structurally decodable (a single segment decodes to `none` under every
payload parser), so by the claim it should be treated as absent and
purged — but `readStoredSession` returns it and leaves the entry in
place (`isTokenExpired` is `false` on an undecodable token).  Moreover
the stored empty string is reported absent but never removed. -/
theorem C1_counterexample :
    decodeJwtPayload (fun _ => none) "garbage" = none ∧
    (readStoredSession (fun _ => none) 1700000000000 cOneStorage).1 = some cOneStored ∧
    (readStoredSession (fun _ => none) 1700000000000 cOneStorage).2 AUTH_STORAGE_KEY =
      some (StoredText.parsed cOneStored) ∧
    (readStoredSession (fun _ => none) 1700000000000 cOneEmptyStorage).1 = none ∧
    (readStoredSession (fun _ => none) 1700000000000 cOneEmptyStorage).2 AUTH_STORAGE_KEY =
      some StoredText.emptyText :=
  ⟨rfl, rfl, rfl, rfl, rfl⟩

/-- C1, amended: a missing entry and the stored empty string yield absent
without removal; every other stored value that is not retained — it fails
to parse, lacks a truthy token or a truthy `user?.id`, has a truthy
non-string token, or its (string) token is reported expired — yields
absent and the entry is removed; a retained record (non-empty token
string, truthy user id, `isTokenExpired` false — which in particular
keeps structurally undecodable tokens) is returned with the entry left in
place. -/
theorem C1_validation (pp : String → Option Json) (now : Int) (sigma : Storage) :
    (sigma AUTH_STORAGE_KEY = none → readStoredSession pp now sigma = (none, sigma)) ∧
    (sigma AUTH_STORAGE_KEY = some StoredText.emptyText →
      readStoredSession pp now sigma = (none, sigma)) ∧
    (sigma AUTH_STORAGE_KEY = some StoredText.unparsable →
      readStoredSession pp now sigma = (none, removeItem sigma AUTH_STORAGE_KEY)) ∧
    (∀ j, sigma AUTH_STORAGE_KEY = some (StoredText.parsed j) →
      (retainedSession pp now j = false →
        readStoredSession pp now sigma = (none, removeItem sigma AUTH_STORAGE_KEY)) ∧
      (retainedSession pp now j = true →
        readStoredSession pp now sigma = (some j, sigma))) := by
  refine ⟨fun h => by simp [readStoredSession, h], fun h => by simp [readStoredSession, h],
    fun h => by simp [readStoredSession, h], fun j h => ⟨fun hr => ?_, fun hr => ?_⟩⟩
  · rcases hsi : sessionInvalid pp now j with e | b
    · simp [readStoredSession, h, hsi]
    · cases b
      · exact absurd ((retained_iff_ok_false pp now j).mpr hsi) (by simp [hr])
      · simp [readStoredSession, h, hsi]
  · rw [retained_iff_ok_false] at hr
    simp [readStoredSession, h, hr]

/-- C1 witness: an unparsable non-empty stored value is removed. -/
theorem C1_validation_witness :
    (readStoredSession (fun _ => none) 0 cOneRetainedStorage).2 AUTH_STORAGE_KEY = none := by
  rw [((C1_validation (fun _ => none) 0 cOneRetainedStorage).2.2.1 (by simp [cOneRetainedStorage]))]
  simp [removeItem]

/-! ## Claim C7: user-visible message extraction -/

theorem jsTruthy_null : jsTruthy Json.null = false := rfl

theorem jsTruthy_bool (b : Bool) : jsTruthy (Json.bool b) = b := rfl

theorem jsTruthy_num (n : Int) : jsTruthy (Json.num n) = decide (n ≠ 0) := rfl

theorem jsTruthy_str (s : String) : jsTruthy (Json.str s) = decide (s ≠ "") := rfl

theorem jsTruthy_arr (l : List Json) : jsTruthy (Json.arr l) = true := rfl

theorem jsTruthy_obj (fs : List (String × Json)) : jsTruthy (Json.obj fs) = true := rfl

theorem titleChain (message : String) (fields : List (String × Json)) :
    (match fallbackTitle fields with
     | some m => m
     | none => if message = "" then errorTail message else Json.str message) =
      firstTruthy
        [claimTitle (some (Json.obj fields)), claimStringBody (some (Json.obj fields)),
          some (Json.str message)]
        (Json.str FALLBACK_ERROR_MESSAGE) := by
  rcases ht : lookupField fields "title" with _ | t
  · by_cases hm : message = "" <;>
      simp [fallbackTitle, ht, claimTitle, claimStringBody, firstTruthy, jsTruthy_null, jsTruthy_bool, jsTruthy_num, jsTruthy_str, jsTruthy_arr, jsTruthy_obj, errorTail,
        networkPattern_empty, hm]
  · cases hjt : jsTruthy t
    · by_cases hm : message = "" <;>
        simp [fallbackTitle, ht, hjt, claimTitle, claimStringBody, firstTruthy, jsTruthy_null, jsTruthy_bool, jsTruthy_num, jsTruthy_str, jsTruthy_arr, jsTruthy_obj,
          errorTail, networkPattern_empty, hm]
    · simp [fallbackTitle, ht, hjt, claimTitle, firstTruthy]

theorem detailChain (message : String) (fields : List (String × Json)) :
    (match
        (match lookupField fields "detail" with
         | some d => if jsTruthy d then some d else fallbackTitle fields
         | none => fallbackTitle fields) with
     | some m => m
     | none => if message = "" then errorTail message else Json.str message) =
      firstTruthy
        [claimDetail (some (Json.obj fields)), claimTitle (some (Json.obj fields)),
          claimStringBody (some (Json.obj fields)), some (Json.str message)]
        (Json.str FALLBACK_ERROR_MESSAGE) := by
  rcases hd : lookupField fields "detail" with _ | d
  · simpa [hd, claimDetail, firstTruthy] using titleChain message fields
  · cases hjd : jsTruthy d
    · simpa [hd, hjd, claimDetail, firstTruthy] using titleChain message fields
    · simp [hd, hjd, claimDetail, firstTruthy]

/-- C7: on the `ApiErrorShape` domain (the `errors` field, when present,
is a field-keyed map of arrays), `extractApiErrorMessage` returns exactly
the first available of: the first message of the first field of the
errors map, the `detail` field, the `title` field, the non-blank string
body, the error's own message, and the fixed fallback; in particular the
spec's HTTP 422 example surfaces `"Email is required"`. -/
theorem C7_extract (message : String) (status : Option Int) (data : Option Json)
    (h : errorsWellShaped data = true) :
    extractApiErrorMessage
        (ExtractInput.apiError { message := message, status := status, data := data }) =
      claimedApiMessage message data ∧
    extractApiErrorMessage (ExtractInput.apiError cSevenError) =
      Json.str "Email is required" := by
  refine ⟨?_, rfl⟩
  rcases data with _ | j
  · by_cases hm : message = "" <;>
      simp [extractApiErrorMessage, readApiErrorMessage, claimedApiMessage, claimErrorsMessage,
        claimDetail, claimTitle, claimStringBody, firstTruthy, jsTruthy_null, jsTruthy_bool, jsTruthy_num, jsTruthy_str, jsTruthy_arr, jsTruthy_obj, errorTail,
        networkPattern_empty, hm]
  · cases j with
    | null =>
      by_cases hm : message = "" <;>
        simp [extractApiErrorMessage, readApiErrorMessage, claimedApiMessage, claimErrorsMessage,
          claimDetail, claimTitle, claimStringBody, firstTruthy, jsTruthy_null, jsTruthy_bool, jsTruthy_num, jsTruthy_str, jsTruthy_arr, jsTruthy_obj, errorTail,
          networkPattern_empty, hm]
    | bool b =>
      cases b <;> by_cases hm : message = "" <;>
        simp [extractApiErrorMessage, readApiErrorMessage, claimedApiMessage, claimErrorsMessage,
          claimDetail, claimTitle, claimStringBody, firstTruthy, jsTruthy_null, jsTruthy_bool, jsTruthy_num, jsTruthy_str, jsTruthy_arr, jsTruthy_obj, errorTail,
          networkPattern_empty, hm]
    | num n =>
      by_cases hn : n = 0 <;> by_cases hm : message = "" <;>
        simp [extractApiErrorMessage, readApiErrorMessage, claimedApiMessage, claimErrorsMessage,
          claimDetail, claimTitle, claimStringBody, firstTruthy, jsTruthy_null, jsTruthy_bool, jsTruthy_num, jsTruthy_str, jsTruthy_arr, jsTruthy_obj, errorTail,
          networkPattern_empty, hm, hn]
    | str s =>
      by_cases hts : trimChars s = ""
      · have hs : s = "" ∨ s ≠ "" := em _
        by_cases hm : message = "" <;>
          simp [extractApiErrorMessage, readApiErrorMessage, claimedApiMessage,
            claimErrorsMessage, claimDetail, claimTitle, claimStringBody, firstTruthy, jsTruthy_null, jsTruthy_bool, jsTruthy_num, jsTruthy_str, jsTruthy_arr, jsTruthy_obj,
            errorTail, networkPattern_empty, hm, hts]
      · have hsne : s ≠ "" := trimChars_ne_empty hts
        simp [extractApiErrorMessage, readApiErrorMessage, claimedApiMessage, claimErrorsMessage,
          claimDetail, claimTitle, claimStringBody, firstTruthy, jsTruthy_null, jsTruthy_bool, jsTruthy_num, jsTruthy_str, jsTruthy_arr, jsTruthy_obj, hts, hsne]
    | arr l =>
      by_cases hm : message = "" <;>
        simp [extractApiErrorMessage, readApiErrorMessage, claimedApiMessage, claimErrorsMessage,
          claimDetail, claimTitle, claimStringBody, firstTruthy, jsTruthy_null, jsTruthy_bool, jsTruthy_num, jsTruthy_str, jsTruthy_arr, jsTruthy_obj, errorTail,
          networkPattern_empty, hm]
    | obj fields =>
      rcases he : lookupField fields "errors" with _ | ev
      · simpa [extractApiErrorMessage, readApiErrorMessage, jsTruthy_null, jsTruthy_bool, jsTruthy_num, jsTruthy_str, jsTruthy_arr, jsTruthy_obj, he, claimedApiMessage,
          claimErrorsMessage, claimStringBody, firstTruthy] using detailChain message fields
      · have hobj : ∃ efields, ev = Json.obj efields ∧
            ∀ f ∈ efields, isArrVal f.2 = true := by
          cases ev with
          | obj efields =>
            refine ⟨efields, rfl, fun f hf => ?_⟩
            have h2 := h
            simp only [errorsWellShaped, he] at h2
            exact List.all_eq_true.mp h2 f hf
          | null => simp [errorsWellShaped, he] at h
          | bool b => simp [errorsWellShaped, he] at h
          | num n => simp [errorsWellShaped, he] at h
          | str s => simp [errorsWellShaped, he] at h
          | arr l => simp [errorsWellShaped, he] at h
        obtain ⟨efields, rfl, hall⟩ := hobj
        rcases efields with _ | ⟨⟨k, v⟩, rest⟩
        · simpa [extractApiErrorMessage, readApiErrorMessage, jsTruthy_null, jsTruthy_bool, jsTruthy_num, jsTruthy_str, jsTruthy_arr, jsTruthy_obj, he, firstErrorsMessage,
            valuesHead, claimedApiMessage, claimErrorsMessage, claimStringBody,
            firstTruthy] using detailChain message fields
        · have hv : ∃ lv, v = Json.arr lv := by
            have h4 : isArrVal v = true := hall (k, v) (List.mem_cons_self _ _)
            cases v <;> simp_all [isArrVal]
          obtain ⟨lv, rfl⟩ := hv
          rcases lv with _ | ⟨m, ms⟩
          · simpa [extractApiErrorMessage, readApiErrorMessage, jsTruthy_null, jsTruthy_bool, jsTruthy_num, jsTruthy_str, jsTruthy_arr, jsTruthy_obj, he, firstErrorsMessage,
              valuesHead, indexZero, claimedApiMessage, claimErrorsMessage, claimStringBody,
              firstTruthy] using detailChain message fields
          · cases hjm : jsTruthy m
            · simpa [extractApiErrorMessage, readApiErrorMessage, jsTruthy_null, jsTruthy_bool, jsTruthy_num, jsTruthy_str, jsTruthy_arr, jsTruthy_obj, he,
                firstErrorsMessage, valuesHead, indexZero, hjm, claimedApiMessage,
                claimErrorsMessage, claimStringBody, firstTruthy] using detailChain message fields
            · simp [extractApiErrorMessage, readApiErrorMessage, jsTruthy_null, jsTruthy_bool, jsTruthy_num, jsTruthy_str, jsTruthy_arr, jsTruthy_obj, he,
                firstErrorsMessage, valuesHead, indexZero, hjm, claimedApiMessage,
                claimErrorsMessage, firstTruthy]

/-- C7 witness at the spec's HTTP 422 example. -/
theorem C7_extract_witness :
    errorsWellShaped (some cSevenBody) = true ∧
    extractApiErrorMessage (ExtractInput.apiError cSevenError) =
      Json.str "Email is required" :=
  ⟨rfl, (C7_extract "Unprocessable Entity" (some 422) (some cSevenBody) rfl).2⟩

/-! ## Claim C2: dashboard aggregation -/

theorem attachCategory_id (categories : List Category) (p : Project) :
    (attachCategory categories p).id = p.id := rfl

theorem pid_mem_keys_dedupStep (categories : List Category) (m : List (String × Project))
    (p : Project) : p.id ∈ (dedupStep categories m p).map Prod.fst := by
  unfold dedupStep
  by_cases hany : m.any (fun e => decide (e.1 = p.id)) = true
  · rw [if_pos hany]
    rcases List.any_eq_true.mp hany with ⟨e, hemem, hekey⟩
    exact List.mem_map.mpr ⟨e, hemem, of_decide_eq_true hekey⟩
  · rw [if_neg hany]
    simp

theorem keys_dedupStep_sup (categories : List Category) (m : List (String × Project))
    (p : Project) {k : String} (hk : k ∈ m.map Prod.fst) :
    k ∈ (dedupStep categories m p).map Prod.fst := by
  unfold dedupStep
  by_cases hany : m.any (fun e => decide (e.1 = p.id)) = true
  · rwa [if_pos hany]
  · rw [if_neg hany]
    simp only [List.map_append, List.mem_append]
    exact Or.inl hk

theorem dedup_foldl_keys_mem (categories : List Category) (l : List Project) :
    ∀ (m : List (String × Project)) (k : String),
      (k ∈ (l.foldl (dedupStep categories) m).map Prod.fst) ↔
        k ∈ m.map Prod.fst ∨ k ∈ l.map Project.id := by
  induction l with
  | nil => simp
  | cons p rest ih =>
    intro m k
    rw [List.foldl_cons, ih]
    unfold dedupStep
    by_cases hany : m.any (fun e => decide (e.1 = p.id)) = true
    · have hp : p.id ∈ m.map Prod.fst := by
        rcases List.any_eq_true.mp hany with ⟨e, hemem, hekey⟩
        exact List.mem_map.mpr ⟨e, hemem, of_decide_eq_true hekey⟩
      rw [if_pos hany]
      simp only [List.map_cons, List.mem_cons]
      constructor
      · rintro (h1 | h2)
        · exact Or.inl h1
        · exact Or.inr (Or.inr h2)
      · rintro (h1 | h2 | h3)
        · exact Or.inl h1
        · exact Or.inl (h2 ▸ hp)
        · exact Or.inr h3
    · rw [if_neg hany]
      simp only [List.map_append, List.mem_append, List.map_cons, List.mem_cons,
        List.map_nil, List.not_mem_nil, or_false]
      tauto

theorem dedup_foldl_keys_nodup (categories : List Category) (l : List Project) :
    ∀ m : List (String × Project), (m.map Prod.fst).Nodup →
      ((l.foldl (dedupStep categories) m).map Prod.fst).Nodup := by
  induction l with
  | nil => intro m hm; simpa using hm
  | cons p rest ih =>
    intro m hm
    rw [List.foldl_cons]
    apply ih
    unfold dedupStep
    by_cases hany : m.any (fun e => decide (e.1 = p.id)) = true
    · rwa [if_pos hany]
    · have hnot : p.id ∉ m.map Prod.fst := by
        intro hmem
        rcases List.mem_map.mp hmem with ⟨e, hemem, hekey⟩
        exact hany (List.any_eq_true.mpr ⟨e, hemem, decide_eq_true hekey⟩)
      rw [if_neg hany]
      simp only [List.map_append, List.map_cons, List.map_nil]
      rw [List.nodup_append]
      exact ⟨hm, List.nodup_singleton _, fun a ha hb => hnot ((List.mem_singleton.mp hb) ▸ ha)⟩

theorem dedup_foldl_entry (categories : List Category) (l : List Project) :
    ∀ (m : List (String × Project)) (e : String × Project),
      e ∈ l.foldl (dedupStep categories) m →
      e ∈ m ∨ (e.1 ∉ m.map Prod.fst ∧
        ∃ q, l.find? (fun x => decide (x.id = e.1)) = some q ∧
          e = (q.id, attachCategory categories q)) := by
  induction l with
  | nil => intro m e he; exact Or.inl (by simpa using he)
  | cons p rest ih =>
    intro m e he
    rw [List.foldl_cons] at he
    rcases ih _ e he with hin | ⟨hkey, q, hfind, heq⟩
    · unfold dedupStep at hin
      by_cases hany : m.any (fun x => decide (x.1 = p.id)) = true
      · rw [if_pos hany] at hin
        exact Or.inl hin
      · rw [if_neg hany] at hin
        rcases List.mem_append.mp hin with hm1 | hm2
        · exact Or.inl hm1
        · have heq2 : e = (p.id, attachCategory categories p) := by simpa using hm2
          have hnot : p.id ∉ m.map Prod.fst := by
            intro hmem
            rcases List.mem_map.mp hmem with ⟨x, hx, hxk⟩
            exact hany (List.any_eq_true.mpr ⟨x, hx, decide_eq_true hxk⟩)
          subst heq2
          refine Or.inr ⟨hnot, p, ?_, rfl⟩
          rw [List.find?_cons_of_pos]
          simp
    · have hkm : e.1 ∉ m.map Prod.fst := fun hx =>
        hkey (keys_dedupStep_sup categories m p hx)
      have hkp : e.1 ≠ p.id := fun hx =>
        hkey (hx ▸ pid_mem_keys_dedupStep categories m p)
      refine Or.inr ⟨hkm, q, ?_, heq⟩
      rw [List.find?_cons_of_neg]
      · exact hfind
      · simp
        exact fun hx => (hkp hx.symm).elim

theorem dedup_foldl_fst_eq (categories : List Category) (l : List Project) :
    ∀ m : List (String × Project), (∀ e ∈ m, e.1 = e.2.id) →
      ∀ e ∈ l.foldl (dedupStep categories) m, e.1 = e.2.id := by
  induction l with
  | nil => intro m hm; simpa using hm
  | cons p rest ih =>
    intro m hm
    rw [List.foldl_cons]
    apply ih
    intro e hemem
    unfold dedupStep at hemem
    by_cases hany : m.any (fun x => decide (x.1 = p.id)) = true
    · rw [if_pos hany] at hemem
      exact hm e hemem
    · rw [if_neg hany] at hemem
      rcases List.mem_append.mp hemem with h1 | h2
      · exact hm e h1
      · have : e = (p.id, attachCategory categories p) := by simpa using h2
        subst this
        exact (attachCategory_id categories p).symm

/-- C2: with one fetched list per category, the dashboard aggregation (i)
returns `[]` when the categories list is empty, (ii) contains each
project id at most once, (iii) contains exactly the ids occurring in the
fanned-out lists, (iv) each element is the first occurrence of its id
across the per-category lists in order, with category metadata attached
(`null` when unknown), and (v) is sorted by descending creation date
(`createdOn` else `createdAt` else `startDate`; missing/unparseable
dates are earliest-possible). -/
theorem C2_dashboard (parse : String → Option Int) (categories : List Category)
    (projectsByCategory : List (List Project))
    (hlen : projectsByCategory.length = categories.length) :
    (categories = [] → getProjectsForDashboard parse categories projectsByCategory = []) ∧
    ((getProjectsForDashboard parse categories projectsByCategory).map Project.id).Nodup ∧
    (∀ pid, (∃ p ∈ getProjectsForDashboard parse categories projectsByCategory, p.id = pid) ↔
      ∃ q ∈ projectsByCategory.flatten, q.id = pid) ∧
    (∀ p ∈ getProjectsForDashboard parse categories projectsByCategory,
      ∃ q, projectsByCategory.flatten.find? (fun x => decide (x.id = p.id)) = some q ∧
        p = attachCategory categories q) ∧
    List.Pairwise (fun a b => sortKey parse b ≤ sortKey parse a)
      (getProjectsForDashboard parse categories projectsByCategory) := by
  by_cases hc : categories.length = 0
  · have hcat : categories = [] := List.length_eq_zero.mp hc
    have hproj : projectsByCategory = [] := by
      subst hcat
      exact List.length_eq_zero.mp (by simpa using hlen)
    subst hcat hproj
    simp [getProjectsForDashboard]
  · have hne : ¬categories = [] := fun h => hc (by simp [h])
    have hres : getProjectsForDashboard parse categories projectsByCategory =
        List.insertionSort (fun a b => sortKey parse b ≤ sortKey parse a)
          (((projectsByCategory.flatten).foldl (dedupStep categories) []).map
            (fun e => e.2)) := by
      simp [getProjectsForDashboard, hc]
    set fold := (projectsByCategory.flatten).foldl (dedupStep categories) [] with hfold
    set deduped := fold.map (fun e => e.2) with hdeduped
    have hperm :
        List.Perm (getProjectsForDashboard parse categories projectsByCategory) deduped := by
      rw [hres]
      exact List.perm_insertionSort _ _
    have hfst : ∀ e ∈ fold, e.1 = e.2.id :=
      dedup_foldl_fst_eq categories projectsByCategory.flatten [] (by simp)
    have hids : deduped.map Project.id = fold.map Prod.fst := by
      rw [hdeduped, List.map_map]
      exact List.map_congr_left fun e he => (hfst e he).symm
    have hnodup : (deduped.map Project.id).Nodup := by
      rw [hids]
      exact dedup_foldl_keys_nodup categories projectsByCategory.flatten [] (by simp)
    refine ⟨fun h => absurd h hne, ?_, ?_, ?_, ?_⟩
    · exact ((hperm.map Project.id).nodup_iff).mpr hnodup
    · intro pid
      have h1 : (∃ p ∈ getProjectsForDashboard parse categories projectsByCategory,
          p.id = pid) ↔ pid ∈ (getProjectsForDashboard parse categories
            projectsByCategory).map Project.id := by
        rw [List.mem_map]
      rw [h1, (hperm.map Project.id).mem_iff, hids,
        dedup_foldl_keys_mem categories projectsByCategory.flatten [] pid]
      simp only [List.map_nil, List.not_mem_nil, false_or]
      rw [List.mem_map]
    · intro p hp
      have hpd : p ∈ deduped := hperm.mem_iff.mp hp
      rcases List.mem_map.mp hpd with ⟨e, hemem, rfl⟩
      rcases dedup_foldl_entry categories projectsByCategory.flatten [] e hemem with
        habs | ⟨_, q, hfind, heq⟩
      · simp at habs
      · have h2 : e.2 = attachCategory categories q := by rw [heq]
        refine ⟨q, ?_, h2⟩
        have hpid : e.2.id = e.1 := (hfst e hemem).symm
        simp only [hpid]
        exact hfind
    · rw [hres]
      have htot : IsTotal Project (fun a b => sortKey parse b ≤ sortKey parse a) :=
        ⟨fun a b => le_total _ _⟩
      have htrans : IsTrans Project (fun a b => sortKey parse b ≤ sortKey parse a) :=
        ⟨fun a b c hab hbc => le_trans hbc hab⟩
      exact List.sorted_insertionSort _ _

/-- C2 witness at the spec's two-category example with an overlapping
project id. -/
theorem C2_dashboard_witness :
    (cTwoLists.length = [cTwoCat 1, cTwoCat 2].length) ∧
    ((getProjectsForDashboard cTwoParse [cTwoCat 1, cTwoCat 2] cTwoLists).map
      Project.id).Nodup :=
  ⟨rfl, (C2_dashboard cTwoParse [cTwoCat 1, cTwoCat 2] cTwoLists rfl).2.1⟩

end Hadyaa
